import Mathlib

/-!
Verification of the RAG backend (`backend/app`): the chunker, the indexing
path, the retrieval formatting, the chat routes and the two re-indexing
drivers, shallowly embedded in Lean.  Python strings are represented as
`List Char`; Python ints as `Int` (loop indices, which Python guarantees
non-negative here, as `Nat`); exceptions as `Except`.
-/

namespace RagBook

instance {ε α : Type} [DecidableEq ε] [DecidableEq α] : DecidableEq (Except ε α) := fun a b =>
  match a, b with
  | .ok x, .ok y => if h : x = y then .isTrue (by simp [h]) else .isFalse (by simp [h])
  | .error x, .error y => if h : x = y then .isTrue (by simp [h]) else .isFalse (by simp [h])
  | .ok _, .error _ => .isFalse (by simp)
  | .error _, .ok _ => .isFalse (by simp)

/-- The Python exceptions the embedded code can actually raise.  The repository
defines no `ConfigurationError` anywhere; the only failure `chunk_text` can
produce is the built-in `ValueError` raised by `range` when its step is zero. -/
inductive PyError where
  | valueError
deriving DecidableEq, Repr

/-- Helper for Python `str.split()` with no argument: scan the characters,
collecting maximal runs of non-whitespace; `acc` holds the current word,
reversed. -/
def splitWsAux : List Char → List Char → List (List Char)
  | [], acc => if acc.isEmpty then [] else [acc.reverse]
  | c :: rest, acc =>
    if c.isWhitespace then
      if acc.isEmpty then splitWsAux rest [] else acc.reverse :: splitWsAux rest []
    else splitWsAux rest (c :: acc)

/-- Python `text.split()` (no argument): words are the maximal runs of
non-whitespace characters; no empty words are produced. -/
def pySplit (s : List Char) : List (List Char) := splitWsAux s []

/-- Python `" ".join(words)`. -/
def pyJoin : List (List Char) → List Char
  | [] => []
  | [w] => w
  | w :: x :: rest => w ++ ' ' :: pyJoin (x :: rest)

/-- Python `str.strip()`: drop leading and trailing whitespace. -/
def pyStrip (s : List Char) : List Char :=
  ((s.dropWhile Char.isWhitespace).reverse.dropWhile Char.isWhitespace).reverse

/-- Python slice `xs[i : j]` where the lower bound `i` is a loop index (always
non-negative here) and the upper bound `j` may be any integer, a negative value
counting from the end of the list, with both bounds clamped into range. -/
def pySlice (xs : List (List Char)) (i : Nat) (j : Int) : List (List Char) :=
  let start := min i xs.length
  let stop : Nat := if j < 0 then ((xs.length : Int) + j).toNat else min j.toNat xs.length
  (xs.drop start).take (stop - start)

/-- Python `range(0, n, step)` for a positive `step`: the documented semantics is
`r[j] = j * step` for `0 ≤ j < ⌈n / step⌉`. -/
def pyRange (n step : Nat) : List Nat :=
  (List.range ((n + step - 1) / step)).map (fun j => j * step)

/-- `RAGService.chunk_text` (`app/services/rag_service.py`, lines 71–91): split
the text into words, loop `for i in range(0, len(words), chunk_size - overlap)`,
join each window `words[i : i + chunk_size]` with single spaces, and keep the
chunks whose `strip()` is non-empty.  A zero step makes Python's `range` raise
`ValueError`; a negative step makes the range empty, so the loop body never
runs and the empty list is returned. -/
def chunk_text (text : List Char) (chunk_size overlap : Int) :
    Except PyError (List (List Char)) :=
  if chunk_size - overlap = 0 then .error .valueError
  else if chunk_size - overlap < 0 then .ok []
  else .ok (((pyRange (pySplit text).length (chunk_size - overlap).toNat).map
      (fun i => pyJoin (pySlice (pySplit text) i ((i : Int) + chunk_size)))).filter
      (fun c => !(pyStrip c).isEmpty))

/-- A formatted retrieval result, as produced by `RAGService.search_similar`
(`app/services/rag_service.py`, lines 194–206): the payload fields plus the
similarity score.  Scores are modelled as rationals. -/
structure SearchRow where
  text : List Char
  title : List Char
  url : List Char
  chapter : List Char
  score : ℚ
  chunk_index : Nat
deriving DecidableEq, Repr

/-- A raw hit returned by the external vector store (`qdrant.search`): payload
fields plus a score.  `payload_chunk_index` is optional because the code reads
it with `result.payload.get("chunk_index", 0)`. -/
structure StorePoint where
  payload_text : List Char
  payload_title : List Char
  payload_url : List Char
  payload_chapter : List Char
  payload_chunk_index : Option Nat
  score : ℚ
deriving DecidableEq, Repr

/-- The result-formatting loop of `RAGService.search_similar`
(`app/services/rag_service.py`, lines 194–206).  The embedding call and the
store query are external; `results` is whatever `qdrant.search` returned. -/
def search_similar (results : List StorePoint) : List SearchRow :=
  results.map (fun r =>
    ⟨r.payload_text, r.payload_title, r.payload_url, r.payload_chapter, r.score,
      r.payload_chunk_index.getD 0⟩)

/-- A context entry as consumed by the agent service: the five dict keys
(`text`, `title`, `url`, `chapter`, `score`) that `create_rag_prompt` and the
source-extraction loops read. -/
structure ContextEntry where
  text : List Char
  title : List Char
  url : List Char
  chapter : List Char
  score : ℚ
deriving DecidableEq, Repr

/-- A retrieval result viewed as a context entry. -/
def contextOfResult (r : SearchRow) : ContextEntry :=
  ⟨r.text, r.title, r.url, r.chapter, r.score⟩

/-- One entry of the `sources` list built by
`AgentService.generate_response_with_metadata` (`app/services/agent_service.py`,
lines 161–169). -/
structure MetaSource where
  title : List Char
  url : List Char
  chapter : List Char
  relevance_score : ℚ
deriving DecidableEq, Repr

/-- The source-extraction loop of `generate_response_with_metadata`. -/
def extract_sources (context_chunks : List ContextEntry) : List MetaSource :=
  context_chunks.map (fun c => ⟨c.title, c.url, c.chapter, c.score⟩)

/-- The `Source` response model (`app/models/chat.py`); the `section` field is
named `sectionName` here because `section` is a reserved word in Lean. -/
structure Source where
  page_title : List Char
  page_url : List Char
  sectionName : List Char
  relevance_score : ℚ
deriving DecidableEq, Repr

/-- The `ChatResponse` response model (`app/models/chat.py`). -/
structure ChatResponse where
  answer : List Char
  sources : List Source
deriving DecidableEq, Repr

/-- Exceptions flowing through the chat routes: FastAPI `HTTPException`
(which subclasses `Exception`, so a blanket `except Exception` catches it too)
and any other exception, carrying its message. -/
inductive PyExc where
  | http (status_code : Nat) (detail : List Char)
  | err (msg : List Char)
deriving DecidableEq, Repr

/-- Python `str(e)` for the exceptions above; FastAPI renders an
`HTTPException` as `"<code>: <detail>"`. -/
def pyExcStr : PyExc → List Char
  | .http code detail => (Nat.repr code).toList ++ ": ".toList ++ detail
  | .err msg => msg

/-- The `try` body of the `chat` route (`app/api/routes/chat.py`, lines 32–66):
retrieve context (external call, result passed in as `search`), raise
`HTTPException(404, …)` when no chunks were found, otherwise generate
(external, passed in as `gen`, returning the answer and the extracted sources)
and format the response. -/
def chat_body (search : Except PyExc (List SearchRow))
    (gen : List SearchRow → Except PyExc (List Char × List MetaSource)) :
    Except PyExc ChatResponse :=
  match search with
  | .error e => .error e
  | .ok context_chunks =>
    if context_chunks.isEmpty then
      .error (.http 404 ("No relevant content found. The book may not be indexed yet.".toList))
    else
      match gen context_chunks with
      | .error e => .error e
      | .ok r => .ok ⟨r.1, r.2.map (fun s => ⟨s.title, s.url, s.chapter, s.relevance_score⟩)⟩

/-- The whole `chat` route (`app/api/routes/chat.py`, lines 32–72): the `try`
body wrapped in `except Exception as e: raise HTTPException(500, f"Error
processing request: {e}")`.  Because `HTTPException` subclasses `Exception`,
the 404 raised inside the `try` is caught here as well. -/
def chat (search : Except PyExc (List SearchRow))
    (gen : List SearchRow → Except PyExc (List Char × List MetaSource)) :
    Except PyExc ChatResponse :=
  match chat_body search gen with
  | .ok r => .ok r
  | .error e => .error (.http 500 ("Error processing request: ".toList ++ pyExcStr e))

/-- What the provider's token stream does once opened: the fragments emitted in
order, and, if the provider fails mid-stream, the message of the exception
raised after the last listed fragment (`none` means the stream ends cleanly). -/
structure TokenStream where
  tokens : List (List Char)
  failure : Option (List Char)
deriving DecidableEq, Repr

/-- The four server-sent event kinds of the streaming chat route
(`StreamToken`, `StreamSources`, `StreamDone` from `app/models/chat.py`, plus
the ad-hoc `{"error": …}` dict). -/
inductive StreamEvent where
  | token (t : List Char)
  | sources (s : List Source)
  | done
  | error (msg : List Char)
deriving DecidableEq, Repr

/-- The `generate` coroutine of the `chat_stream` route
(`app/api/routes/chat.py`, lines 88–133): search for context (external result
passed in), emit a single error event when nothing was found, otherwise emit
one token event per stream fragment; if the provider raises mid-stream the
`except` emits one error event and the coroutine ends; on clean exhaustion emit
one sources event (projected from the same context chunks) and one done
event. -/
def chat_stream_generate (search : Except PyExc (List SearchRow))
    (stream : List SearchRow → TokenStream) : List StreamEvent :=
  match search with
  | .error e => [.error (pyExcStr e)]
  | .ok context_chunks =>
    if context_chunks.isEmpty then
      [.error ("No relevant content found".toList)]
    else
      (stream context_chunks).tokens.map StreamEvent.token ++
        match (stream context_chunks).failure with
        | some msg => [.error msg]
        | none =>
          [.sources (context_chunks.map (fun c => ⟨c.title, c.url, c.chapter, c.score⟩)),
            .done]

/-- The pinned context entry built by the `chat_with_selected_text` route
(`app/api/routes/chat.py`, lines 164–171). -/
def selectedContext (selected_text page_url : List Char) : ContextEntry :=
  ⟨selected_text, "Selected Text".toList, page_url, "User Selection".toList, 1⟩

/-- The `all_context` list the `chat_with_selected_text` route hands to
`generate_response_with_metadata` (`app/api/routes/chat.py`, line 174): the
selected text prepended to the retrieved chunks. -/
def chat_with_selected_text_context (selected_text page_url : List Char)
    (context_chunks : List SearchRow) : List ContextEntry :=
  selectedContext selected_text page_url :: context_chunks.map contextOfResult

/-- A point uploaded to the vector store by `RAGService.index_document`
(`app/services/rag_service.py`, lines 120–139). -/
structure PointStruct where
  id : List Char
  vector : List ℚ
  payload_text : List Char
  payload_doc_id : List Char
  payload_title : List Char
  payload_url : List Char
  payload_chapter : List Char
  payload_chunk_index : Nat
  payload_indexed_at : List Char
deriving DecidableEq, Repr

/-- `RAGService.index_document` (`app/services/rag_service.py`, lines 93–147):
chunk the content with `chunk_text`'s default parameters (the call is
`self.chunk_text(content)`, so `chunk_size = 500`, `overlap = 100`), then build
one point per chunk with the deterministic id `f"{doc_id}_chunk_{i}"`.  The
embedding provider is the function `embed`; `now` is the indexing timestamp
(`datetime.utcnow().isoformat()`), a fresh value on every run. -/
def index_document (embed : List Char → List ℚ) (now : List Char)
    (doc_id title content url : List Char) (chapter : Option (List Char)) :
    Except PyError (List PointStruct) :=
  (chunk_text content 500 100).map (fun chunks =>
    chunks.enum.map (fun ic =>
      ⟨doc_id ++ "_chunk_".toList ++ (Nat.repr ic.1).toList, embed ic.2, ic.2, doc_id,
        title, url, chapter.getD ("Main".toList), ic.1, now⟩))

/-- Modelled from the spec: the vector store's `upsert` for a single point is
not code of this repository (it lives in the external store); §4.3 specifies it
as insert-or-replace keyed by `id`.  The store is modelled as the list of its
points in insertion order. -/
def upsertPoint (store : List PointStruct) (p : PointStruct) : List PointStruct :=
  if store.any (fun q => q.id = p.id) then
    store.map (fun q => if q.id = p.id then p else q)
  else store ++ [p]

/-- Modelled from the spec: `upsert(collection, points)` applies the
insert-or-replace of each point in order (§4.3). -/
def upsert (store : List PointStruct) (pts : List PointStruct) : List PointStruct :=
  pts.foldl upsertPoint store

/-- A markdown file as seen by the two re-indexing drivers: its name and its
content. -/
structure MdFile where
  name : List Char
  content : List Char
deriving DecidableEq, Repr

/-- One entry of the `indexed_files` report of the admin re-index route. -/
structure IndexedFile where
  file : List Char
  chunks : Nat
deriving DecidableEq, Repr

/-- The `ReindexResponse` model (`app/models/chat.py`), message text omitted. -/
structure ReindexResponse where
  status : List Char
  indexed_count : Nat
  failed_count : Nat
  details : Option (List IndexedFile)
deriving DecidableEq, Repr

/-- The `perform_indexing` closure of the admin `reindex_content` route
(`app/api/routes/admin.py`, lines 46–89): process each file, accumulating the
chunk total and the per-file report; a file whose processing raises is logged
and skipped (`except … continue`).  Reading, metadata derivation, and
`index_document` for one file are abstracted as `process`, which returns the
chunk count or the exception it raised. -/
def perform_indexing (process : MdFile → Except PyExc Nat) (files : List MdFile) :
    Nat × List IndexedFile :=
  files.foldl (fun acc f =>
    match process f with
    | .ok n => (acc.1 + n, acc.2 ++ [⟨f.name, n⟩])
    | .error _ => acc) (0, [])

/-- The foreground branch of the `reindex_content` route
(`app/api/routes/admin.py`, lines 100–108): run `perform_indexing` and report
`indexed_count = len(indexed_files)` and the literal `failed_count = 0`. -/
def reindex_content_foreground (process : MdFile → Except PyExc Nat)
    (files : List MdFile) : ReindexResponse :=
  ⟨"completed".toList, (perform_indexing process files).2.length, 0,
    some (perform_indexing process files).2⟩

/-- The file loop of the indexing script (`scripts/index_book.py`, lines
51–91): a file whose stripped content has fewer than 100 characters is skipped
before any processing; otherwise the file is processed, a failure being caught
and skipped.  The result is `(total_chunks, indexed_files)`. -/
def index_book_content (process : MdFile → Except PyExc Nat) (files : List MdFile) :
    Nat × Nat :=
  files.foldl (fun acc f =>
    if (pyStrip f.content).length < 100 then acc
    else
      match process f with
      | .ok n => (acc.1 + n, acc.2 + 1)
      | .error _ => acc) (0, 0)

/-- The indexing-related configuration of `Settings`
(`app/config/settings.py`, lines 28–29); the other settings fields play no role
in the claims and are omitted. -/
structure Settings where
  chunk_size : Nat
  chunk_overlap : Nat
deriving DecidableEq, Repr

/-- The defaults of `Settings`: `chunk_size = 800`, `chunk_overlap = 100`. -/
def defaultSettings : Settings := ⟨800, 100⟩

/-- A 401-word text (single-character words joined by single spaces), on which
chunking with parameters `500/100` and with parameters `800/100` produce
different chunk counts. -/
def wordText401 : List Char := pyJoin (List.replicate 401 ['w'])

/-- Fixture for the re-indexing scenario: processing fails on the file named
`bad.md` and yields 3 chunks on every other file. -/
def scenarioProcess : MdFile → Except PyExc Nat := fun f =>
  if f.name = ("bad.md".toList) then .error (.err ("malformed".toList)) else .ok 3

/-- Fixture: three documents, the middle one malformed. -/
def scenarioFiles : List MdFile :=
  [⟨"a.md".toList, "content a".toList⟩, ⟨"bad.md".toList, "content bad".toList⟩,
    ⟨"c.md".toList, "content c".toList⟩]

/-- Fixture: a ten-word text. -/
def exText10 : List Char := ("a b c d e f g h i j".toList)

/-- Fixture: a three-word text. -/
def exText3 : List Char := ("a b c".toList)

/-- Fixture: a 4-character file, below the script's 100-character minimum. -/
def tinyFile : MdFile := ⟨"t.md".toList, "tiny".toList⟩

/-- Fixture: a normal first file. -/
def fileA : MdFile := ⟨"a.md".toList, "content a".toList⟩

/-- Fixture: a normal last file. -/
def fileC : MdFile := ⟨"c.md".toList, "content c".toList⟩

/-! ### Properties of the word splitter, joiner, stripper, slicer and range -/

theorem splitWsAux_words (cs : List Char) : ∀ acc : List Char,
    (∀ c ∈ acc, ¬ c.isWhitespace) →
    ∀ w ∈ splitWsAux cs acc, w ≠ [] ∧ ∀ c ∈ w, ¬ c.isWhitespace := by
  induction cs with
  | nil =>
    intro acc hacc w hw
    cases acc with
    | nil => simp [splitWsAux] at hw
    | cons a as =>
      simp [splitWsAux] at hw
      subst hw
      refine ⟨by simp, ?_⟩
      intro c hc
      apply hacc c
      rcases List.mem_append.mp hc with h | h
      · exact List.mem_cons_of_mem _ (List.mem_reverse.mp h)
      · simp at h; subst h; exact List.mem_cons_self _ _
  | cons c rest ih =>
    intro acc hacc w hw
    by_cases hws : c.isWhitespace
    · cases acc with
      | nil =>
        simp [splitWsAux, hws] at hw
        exact ih [] (by simp) w hw
      | cons a as =>
        simp [splitWsAux, hws] at hw
        rcases hw with hw | hw
        · subst hw
          refine ⟨by simp, ?_⟩
          intro x hx
          apply hacc x
          rcases List.mem_append.mp hx with h | h
          · exact List.mem_cons_of_mem _ (List.mem_reverse.mp h)
          · simp at h; subst h; exact List.mem_cons_self _ _
        · exact ih [] (by simp) w hw
    · simp only [splitWsAux, hws, if_neg, Bool.false_eq_true, if_false] at hw
      refine ih (c :: acc) ?_ w hw
      intro x hx
      rcases List.mem_cons.mp hx with h | h
      · subst h; exact hws
      · exact hacc x h

/-- Every word produced by `pySplit` is non-empty and whitespace-free. -/
theorem pySplit_words (s : List Char) :
    ∀ w ∈ pySplit s, w ≠ [] ∧ ∀ c ∈ w, ¬ c.isWhitespace :=
  splitWsAux_words s [] (by simp)

/-- A character of any word of `ws` is a character of `" ".join(ws)`. -/
theorem mem_pyJoin : ∀ (ws : List (List Char)) (w : List Char) (c : Char),
    w ∈ ws → c ∈ w → c ∈ pyJoin ws := by
  intro ws
  induction ws with
  | nil => intro w c hw _; simp at hw
  | cons v rest ih =>
    intro w c hw hc
    cases rest with
    | nil =>
      rcases List.mem_cons.mp hw with h | h
      · subst h; simpa [pyJoin] using hc
      · simp at h
    | cons x t =>
      simp only [pyJoin, List.mem_append, List.mem_cons]
      rcases List.mem_cons.mp hw with h | h
      · subst h; exact Or.inl hc
      · exact Or.inr (Or.inr (ih w c h hc))

theorem dropWhile_head_false {α : Type} (p : α → Bool) :
    ∀ (l : List α) (a : α) (t : List α), l.dropWhile p = a :: t → ¬ p a := by
  intro l
  induction l with
  | nil => intro a t h; simp [List.dropWhile] at h
  | cons x xs ih =>
    intro a t h
    rw [List.dropWhile_cons] at h
    by_cases hx : p x
    · rw [if_pos hx] at h; exact ih a t h
    · rw [if_neg hx] at h
      cases h
      simp [hx]

/-- A list containing some non-whitespace character has a non-empty `strip()`. -/
theorem pyStrip_ne_nil {l : List Char} {c : Char} (hc : c ∈ l)
    (hw : ¬ c.isWhitespace) : pyStrip l ≠ [] := by
  intro h
  have h1 : (l.dropWhile Char.isWhitespace).reverse.dropWhile Char.isWhitespace = [] :=
    List.reverse_eq_nil_iff.mp h
  have h2 : ∀ x ∈ (l.dropWhile Char.isWhitespace).reverse, x.isWhitespace :=
    List.dropWhile_eq_nil_iff.mp h1
  have h3 : l.dropWhile Char.isWhitespace ≠ [] := by
    intro h0
    exact hw (List.dropWhile_eq_nil_iff.mp h0 c hc)
  rcases List.exists_cons_of_ne_nil h3 with ⟨a, t, hat⟩
  have ha : ¬ Char.isWhitespace a := dropWhile_head_false _ l a t hat
  apply ha
  apply h2
  rw [hat]
  simp

/-- The element at position `p` of `xs` belongs to the slice `xs[i : j]`
whenever `i ≤ p`, `p < j` and `p` is in range. -/
theorem getElem_mem_pySlice (xs : List (List Char)) (i p : Nat) (j : Int)
    (hip : i ≤ p) (hpj : (p : Int) < j) (hpN : p < xs.length) :
    xs[p] ∈ pySlice xs i j := by
  unfold pySlice
  have hj0 : ¬ j < 0 := by omega
  have hstart : min i xs.length = i := Nat.min_eq_left (Nat.le_of_lt (Nat.lt_of_le_of_lt hip hpN))
  rw [if_neg hj0, hstart]
  have hstop : p < min j.toNat xs.length := by
    apply Nat.lt_min.mpr
    exact ⟨by omega, hpN⟩
  have hlen : p - i < ((xs.drop i).take (min j.toNat xs.length - i)).length := by
    simp only [List.length_take, List.length_drop]
    omega
  have hval : ((xs.drop i).take (min j.toNat xs.length - i)).get ⟨p - i, hlen⟩ = xs[p] := by
    rw [List.get_eq_getElem, List.getElem_take, List.getElem_drop]
    congr 1
    exact Nat.add_sub_cancel' hip
  exact hval ▸ List.get_mem _ _ _

theorem pyRange_length (n step : Nat) :
    (pyRange n step).length = (n + step - 1) / step := by
  simp [pyRange]

/-- Every index listed by `range(0, n, step)` is strictly below `n`. -/
theorem mem_pyRange_lt {n step : Nat} (hstep : 0 < step) {i : Nat}
    (hi : i ∈ pyRange n step) : i < n := by
  rcases List.mem_map.mp hi with ⟨j, hj, rfl⟩
  have hjk : j + 1 ≤ (n + step - 1) / step := List.mem_range.mp hj
  have h1 : (j + 1) * step ≤ ((n + step - 1) / step) * step :=
    Nat.mul_le_mul_right step hjk
  have h2 : ((n + step - 1) / step) * step ≤ n + step - 1 := Nat.div_mul_le_self _ _
  have h3 : (j + 1) * step = j * step + step := by ring
  omega

/-- Every position `p < n` is covered by a window of width `step` starting at a
listed index. -/
theorem pyRange_coverage {n step : Nat} (hstep : 0 < step) {p : Nat} (hp : p < n) :
    ∃ i ∈ pyRange n step, i ≤ p ∧ p < i + step := by
  have hdm : step * (p / step) + p % step = p := Nat.div_add_mod p step
  have hmod : p % step < step := Nat.mod_lt p hstep
  have hps : p / step * step ≤ p := Nat.div_mul_le_self p step
  have hcomm : p / step * step = step * (p / step) := Nat.mul_comm _ _
  refine ⟨p / step * step, ?_, hps, by omega⟩
  apply List.mem_map.mpr
  refine ⟨p / step, List.mem_range.mpr ?_, rfl⟩
  have hmul : (p / step + 1) * step = p / step * step + step := by ring
  have hle : (p / step + 1) * step ≤ n + step - 1 := by omega
  have := (Nat.le_div_iff_mul_le hstep).mpr hle
  omega

/-! ### Claims C1 and C3: the chunker -/

/-- C1, amended: for every text of word-count `N` and parameters
`0 < overlap < chunk_size ≤ N`, `chunk_text` succeeds and returns exactly
`⌈N / (chunk_size − overlap)⌉` segments (the spec claimed
`⌈(N − overlap) / (chunk_size − overlap)⌉`), each segment is non-empty, and
every word of the input appears in at least one returned segment. -/
theorem claim_C1 (text : List Char) (cs ov : Int)
    (hov : 0 < ov) (hcs : ov < cs) (_hN : cs ≤ ((pySplit text).length : Int)) :
    ∃ l, chunk_text text cs ov = .ok l
      ∧ l.length = ((pySplit text).length + (cs - ov).toNat - 1) / (cs - ov).toNat
      ∧ (∀ c ∈ l, c ≠ [])
      ∧ ∀ p : Fin (pySplit text).length,
          ∃ sl, pyJoin sl ∈ l ∧ (pySplit text).get p ∈ sl := by
  have hstep_ne : ¬ cs - ov = 0 := by omega
  have hstep_neg : ¬ cs - ov < 0 := by omega
  have hsN_cast : (((cs - ov).toNat : Int)) = cs - ov := Int.toNat_of_nonneg (by omega)
  have hsN_pos : 0 < (cs - ov).toNat := by omega
  set ws := pySplit text with hwsdef
  set sN := (cs - ov).toNat with hsNdef
  have hkeep : ∀ a ∈ (pyRange ws.length sN).map
      (fun i => pyJoin (pySlice ws i ((i : Int) + cs))),
      (!(pyStrip a).isEmpty) = true := by
    intro a ha
    rcases List.mem_map.mp ha with ⟨i, hi, rfl⟩
    have hiN : i < ws.length := mem_pyRange_lt hsN_pos hi
    have hw0 : ws[i] ∈ pySlice ws i ((i : Int) + cs) :=
      getElem_mem_pySlice ws i i _ (Nat.le_refl i) (by omega) hiN
    rcases pySplit_words text ws[i] (List.getElem_mem hiN) with ⟨hne, hnws⟩
    rcases List.exists_mem_of_ne_nil _ hne with ⟨c, hc⟩
    have hstrip : pyStrip (pyJoin (pySlice ws i ((i : Int) + cs))) ≠ [] :=
      pyStrip_ne_nil (mem_pyJoin _ _ _ hw0 hc) (hnws c hc)
    simpa using hstrip
  have hfilter :
      ((pyRange ws.length sN).map (fun i => pyJoin (pySlice ws i ((i : Int) + cs)))).filter
        (fun c => !(pyStrip c).isEmpty)
      = (pyRange ws.length sN).map (fun i => pyJoin (pySlice ws i ((i : Int) + cs))) :=
    List.filter_eq_self.mpr hkeep
  refine ⟨(pyRange ws.length sN).map (fun i => pyJoin (pySlice ws i ((i : Int) + cs))),
    ?_, ?_, ?_, ?_⟩
  · unfold chunk_text
    rw [if_neg hstep_ne, if_neg hstep_neg]
    exact congrArg Except.ok hfilter
  · simp [pyRange_length]
  · intro c hc h0
    have hck := hkeep c hc
    subst h0
    exact absurd hck (by decide)
  · intro p
    rcases pyRange_coverage hsN_pos p.isLt with ⟨i, hi, hip, hpi⟩
    refine ⟨pySlice ws i ((i : Int) + cs), List.mem_map.mpr ⟨i, hi, rfl⟩, ?_⟩
    have hpj : ((p : Nat) : Int) < (i : Int) + cs := by omega
    have hm := getElem_mem_pySlice ws i p _ hip hpj p.isLt
    simpa using hm

/-- Witness for C1: the amended statement applied to the 10-word text
`"a b c d e f g h i j"` with `chunk_size = 5`, `overlap = 2`. -/
theorem claim_C1_witness :
    (0 : Int) < 2 ∧ (2 : Int) < 5
    ∧ (5 : Int) ≤ ((pySplit exText10).length : Int)
    ∧ ∃ l, chunk_text exText10 5 2 = .ok l
      ∧ l.length = ((pySplit exText10).length
          + ((5 : Int) - 2).toNat - 1) / ((5 : Int) - 2).toNat
      ∧ (∀ c ∈ l, c ≠ [])
      ∧ ∀ p : Fin (pySplit exText10).length,
          ∃ sl, pyJoin sl ∈ l ∧ (pySplit exText10).get p ∈ sl :=
  ⟨by decide, by decide, by decide,
    claim_C1 exText10 5 2 (by decide) (by decide) (by decide)⟩

/-- Counterexample to C1 as stated: on the 10-word text with `chunk_size = 5`
and `overlap = 2` the code returns 4 segments, while the claimed formula
`⌈(N − overlap) / (chunk_size − overlap)⌉ = ⌈8 / 3⌉` gives 3. -/
theorem claim_C1_counterexample :
    (chunk_text exText10 5 2).map List.length = .ok 4
    ∧ ((pySplit exText10).length - 2 + (5 - 2) - 1) / (5 - 2) = 3 := by
  decide

/-- C3, amended: the code defines no `ConfigurationError`.  For parameters
violating the precondition: `overlap = chunk_size` raises Python's built-in
`ValueError` (from `range` with zero step); `overlap > chunk_size` silently
returns the empty list with no error; `chunk_size ≤ 0` with
`overlap < chunk_size` returns a value with no error.  In every case the
function terminates (the embedding is a total function) and the loop never
advances by a zero or negative step. -/
theorem claim_C3 (text : List Char) (cs ov : Int) (_h : cs ≤ 0 ∨ cs ≤ ov) :
    (cs = ov → chunk_text text cs ov = .error .valueError)
    ∧ (cs < ov → chunk_text text cs ov = .ok [])
    ∧ (ov < cs → ∃ l, chunk_text text cs ov = .ok l) := by
  refine ⟨?_, ?_, ?_⟩
  · intro heq
    unfold chunk_text
    rw [if_pos (by omega)]
  · intro hlt
    unfold chunk_text
    rw [if_neg (by omega : ¬ cs - ov = 0), if_pos (by omega : cs - ov < 0)]
  · intro hgt
    refine ⟨((pyRange (pySplit text).length (cs - ov).toNat).map
        (fun i => pyJoin (pySlice (pySplit text) i ((i : Int) + cs)))).filter
        (fun c => !(pyStrip c).isEmpty), ?_⟩
    unfold chunk_text
    rw [if_neg (by omega : ¬ cs - ov = 0), if_neg (by omega : ¬ cs - ov < 0)]

/-- Witness for C3 at `chunk_size = 2`, `overlap = 5` on the text `"a b c"`. -/
theorem claim_C3_witness :
    ((2 : Int) ≤ 0 ∨ (2 : Int) ≤ 5)
    ∧ (((2 : Int) = 5 → chunk_text exText3 2 5 = .error .valueError)
      ∧ ((2 : Int) < 5 → chunk_text exText3 2 5 = .ok [])
      ∧ ((5 : Int) < 2 → ∃ l, chunk_text exText3 2 5 = .ok l)) :=
  ⟨Or.inr (by decide), claim_C3 exText3 2 5 (Or.inr (by decide))⟩

/-- Counterexample to C3 as stated: with `overlap = 5 > chunk_size = 2` the
code raises nothing at all — it returns the empty list successfully, rather
than failing fast with a `ConfigurationError`. -/
theorem claim_C3_counterexample :
    chunk_text exText3 2 5 = .ok [] := by decide

/-! ### Helper lemmas: fold characterisations and the modelled store -/

theorem perform_indexing_foldl (process : MdFile → Except PyExc Nat) :
    ∀ (files : List MdFile) (acc : Nat × List IndexedFile),
      files.foldl (fun acc f =>
        match process f with
        | .ok n => (acc.1 + n, acc.2 ++ [⟨f.name, n⟩])
        | .error _ => acc) acc
      = (acc.1 + (files.filterMap (fun f => (process f).toOption)).sum,
          acc.2 ++ files.filterMap (fun f =>
            (process f).toOption.map (fun n => IndexedFile.mk f.name n))) := by
  intro files
  induction files with
  | nil => intro acc; simp
  | cons f rest ih =>
    intro acc
    simp only [List.foldl_cons, List.filterMap_cons]
    cases hpf : process f with
    | ok n =>
      rw [ih]
      simp [Except.toOption, Nat.add_assoc]
    | error e =>
      rw [ih]
      simp [Except.toOption]

theorem length_filterMap_eq_length_filter {α β : Type} (g : α → Option β) :
    ∀ l : List α, (l.filterMap g).length = (l.filter (fun x => (g x).isSome)).length := by
  intro l
  induction l with
  | nil => rfl
  | cons x rest ih =>
    rw [List.filterMap_cons, List.filter_cons]
    cases hg : g x with
    | none => simpa [hg] using ih
    | some b => simpa [hg] using ih

theorem upsertPoint_ids_of_mem (store : List PointStruct) (p : PointStruct)
    (h : p.id ∈ store.map PointStruct.id) :
    (upsertPoint store p).map PointStruct.id = store.map PointStruct.id := by
  unfold upsertPoint
  have hany : store.any (fun q => q.id = p.id) = true := by
    rcases List.mem_map.mp h with ⟨q, hq, hid⟩
    exact List.any_eq_true.mpr ⟨q, hq, by simp [hid]⟩
  rw [if_pos hany, List.map_map]
  apply List.map_congr_left
  intro q hq
  by_cases hid : q.id = p.id
  · rw [Function.comp_apply, if_pos hid, hid]
  · rw [Function.comp_apply, if_neg hid]

theorem upsertPoint_ids_superset (store : List PointStruct) (p : PointStruct)
    (q : List Char) (h : q ∈ store.map PointStruct.id) :
    q ∈ (upsertPoint store p).map PointStruct.id := by
  unfold upsertPoint
  by_cases hany : store.any (fun r => r.id = p.id) = true
  · rw [if_pos hany, List.map_map]
    rcases List.mem_map.mp h with ⟨r, hr, rfl⟩
    by_cases hid : r.id = p.id
    · exact List.mem_map.mpr ⟨r, hr, by rw [Function.comp_apply, if_pos hid, hid]⟩
    · exact List.mem_map.mpr ⟨r, hr, by rw [Function.comp_apply, if_neg hid]⟩
  · rw [if_neg hany, List.map_append]
    exact List.mem_append.mpr (Or.inl h)

theorem upsertPoint_id_mem (store : List PointStruct) (p : PointStruct) :
    p.id ∈ (upsertPoint store p).map PointStruct.id := by
  unfold upsertPoint
  by_cases hany : store.any (fun r => r.id = p.id) = true
  · rw [if_pos hany, List.map_map]
    rcases List.any_eq_true.mp hany with ⟨r, hr, hid⟩
    have hid' : r.id = p.id := by simpa using hid
    exact List.mem_map.mpr ⟨r, hr, by rw [Function.comp_apply, if_pos hid']⟩
  · rw [if_neg hany, List.map_append]
    simp

theorem upsert_ids_superset :
    ∀ (pts : List PointStruct) (store : List PointStruct) (q : List Char),
      q ∈ store.map PointStruct.id → q ∈ (upsert store pts).map PointStruct.id := by
  intro pts
  induction pts with
  | nil => intro store q h; exact h
  | cons p rest ih =>
    intro store q h
    exact ih (upsertPoint store p) q (upsertPoint_ids_superset store p q h)

theorem upsert_ids_contain :
    ∀ (pts : List PointStruct) (store : List PointStruct) (p : PointStruct), p ∈ pts →
      p.id ∈ (upsert store pts).map PointStruct.id := by
  intro pts
  induction pts with
  | nil => intro store p hp; simp at hp
  | cons q rest ih =>
    intro store p hp
    rcases List.mem_cons.mp hp with h | h
    · subst h
      exact upsert_ids_superset rest (upsertPoint store p) p.id (upsertPoint_id_mem store p)
    · exact ih (upsertPoint store q) p h

theorem upsert_ids_of_all_mem :
    ∀ (pts : List PointStruct) (store : List PointStruct),
      (∀ p ∈ pts, p.id ∈ store.map PointStruct.id) →
      (upsert store pts).map PointStruct.id = store.map PointStruct.id := by
  intro pts
  induction pts with
  | nil => intro store _; rfl
  | cons p rest ih =>
    intro store hall
    have h1 : (upsertPoint store p).map PointStruct.id = store.map PointStruct.id :=
      upsertPoint_ids_of_mem store p (hall p (List.mem_cons_self _ _))
    have h2 : ∀ q ∈ rest, q.id ∈ (upsertPoint store p).map PointStruct.id := by
      intro q hq
      rw [h1]
      exact hall q (List.mem_cons_of_mem _ hq)
    calc (upsert store (p :: rest)).map PointStruct.id
        = (upsert (upsertPoint store p) rest).map PointStruct.id := rfl
      _ = (upsertPoint store p).map PointStruct.id := ih _ h2
      _ = store.map PointStruct.id := h1

theorem enum_map_depends_fst {α β : Type} (l : List α) (g : Nat → β) :
    l.enum.map (fun ic => g ic.1) = (List.range l.length).map g := by
  have h : (fun ic : Nat × α => g ic.1) = g ∘ Prod.fst := rfl
  rw [h, ← List.map_map, List.enum_map_fst]

theorem chunk_text_defaults_ok (content : List Char) :
    chunk_text content 500 100 = .ok (((pyRange (pySplit content).length 400).map
      (fun i => pyJoin (pySlice (pySplit content) i ((i : Int) + 500)))).filter
      (fun c => !(pyStrip c).isEmpty)) := rfl

/-! ### Claims C2 and C10: the two re-indexing drivers -/

/-- C2, amended: during a foreground re-index a failure on one document is
caught and that document is skipped without aborting the remaining documents:
`indexed_count` counts exactly the successfully processed files, the chunk
total sums only the successes, and the details list the successes in order.
However the route reports the literal `failed_count = 0` regardless of how
many documents failed (the spec claimed failures are counted in
`failedCount`). -/
theorem claim_C2 (process : MdFile → Except PyExc Nat) (files : List MdFile) :
    (perform_indexing process files).1
        = (files.filterMap (fun f => (process f).toOption)).sum
    ∧ (reindex_content_foreground process files).indexed_count
        = (files.filter (fun f => (process f).toOption.isSome)).length
    ∧ (reindex_content_foreground process files).failed_count = 0
    ∧ (reindex_content_foreground process files).details
        = some (files.filterMap (fun f =>
            (process f).toOption.map (fun n => IndexedFile.mk f.name n))) := by
  have h := perform_indexing_foldl process files (0, [])
  have hpi : perform_indexing process files
      = ((files.filterMap (fun f => (process f).toOption)).sum,
          files.filterMap (fun f =>
            (process f).toOption.map (fun n => IndexedFile.mk f.name n))) := by
    unfold perform_indexing
    rw [h]
    simp
  refine ⟨by rw [hpi], ?_, rfl, ?_⟩
  · show (perform_indexing process files).2.length = _
    rw [hpi]
    simpa using length_filterMap_eq_length_filter
      (fun f => (process f).toOption.map (fun n => IndexedFile.mk f.name n)) files
  · show some (perform_indexing process files).2 = _
    rw [hpi]

/-- Counterexample to C2 as stated: one malformed document among three is
skipped while the other two are indexed (`indexed_count = 2`, chunk total
`6 = 3 + 3`, details listing exactly the two successes) — but the reported
`failed_count` is `0`, not `1` as the claim requires. -/
theorem claim_C2_counterexample :
    (reindex_content_foreground scenarioProcess scenarioFiles).indexed_count = 2
    ∧ (reindex_content_foreground scenarioProcess scenarioFiles).failed_count = 0
    ∧ (perform_indexing scenarioProcess scenarioFiles).1 = 6
    ∧ (reindex_content_foreground scenarioProcess scenarioFiles).details
        = some [⟨"a.md".toList, 3⟩, ⟨"c.md".toList, 3⟩] := by decide

/-- C10: the script-driven re-index silently skips every file whose stripped
content has fewer than 100 characters — it contributes no chunks, is not
counted in the indexed-files total and is not recorded as a failure (the
result pair is exactly that of the run without the file); the HTTP reindex
route applies no such filter: the same file, when its processing succeeds, is
counted in `indexed_count`. -/
theorem claim_C10 (process : MdFile → Except PyExc Nat) (f : MdFile)
    (files₁ files₂ : List MdFile)
    (hshort : (pyStrip f.content).length < 100) :
    index_book_content process (files₁ ++ f :: files₂)
        = index_book_content process (files₁ ++ files₂)
    ∧ ∀ n, process f = .ok n →
        (reindex_content_foreground process (files₁ ++ f :: files₂)).indexed_count
          = (reindex_content_foreground process (files₁ ++ files₂)).indexed_count + 1 := by
  constructor
  · unfold index_book_content
    rw [List.foldl_append, List.foldl_append, List.foldl_cons, if_pos hshort]
  · intro n hn
    show (perform_indexing process (files₁ ++ f :: files₂)).2.length
        = (perform_indexing process (files₁ ++ files₂)).2.length + 1
    unfold perform_indexing
    rw [perform_indexing_foldl process (files₁ ++ f :: files₂) (0, []),
      perform_indexing_foldl process (files₁ ++ files₂) (0, [])]
    simp [List.filterMap_append, List.filterMap_cons, hn, Except.toOption]
    omega

/-- Witness for C10: a 4-character file `t.md` between two normal files, with
the fixture processing function. -/
theorem claim_C10_witness :
    (pyStrip tinyFile.content).length < 100
    ∧ (index_book_content scenarioProcess ([fileA] ++ tinyFile :: [fileC])
        = index_book_content scenarioProcess ([fileA] ++ [fileC])
      ∧ ∀ n, scenarioProcess tinyFile = .ok n →
          (reindex_content_foreground scenarioProcess
              ([fileA] ++ tinyFile :: [fileC])).indexed_count
            = (reindex_content_foreground scenarioProcess
                ([fileA] ++ [fileC])).indexed_count + 1) :=
  ⟨by decide, claim_C10 scenarioProcess tinyFile [fileA] [fileC] (by decide)⟩

/-! ### Claims C4 and C5: the chat routes -/

/-- C4: when retrieval returns no chunks, the `try` body of the chat route
does raise `HTTPException(404, "No relevant content found…")` — but because
`HTTPException` subclasses `Exception`, the route's blanket
`except Exception` catches it and re-raises it as a 500 "Error processing
request: …".  The caller therefore observes HTTP 500, not the distinct 404 the
claim (and the code's own `raise`) intends; this holds for every generation
function, which is never reached. -/
theorem claim_C4 (gen : List SearchRow → Except PyExc (List Char × List MetaSource)) :
    chat_body (.ok []) gen
        = .error (.http 404 ("No relevant content found. The book may not be indexed yet.".toList))
    ∧ chat (.ok []) gen
        = .error (.http 500 ("Error processing request: ".toList
            ++ pyExcStr (.http 404
              ("No relevant content found. The book may not be indexed yet.".toList)))) :=
  ⟨rfl, rfl⟩

/-- C5: every event sequence the streaming chat route emits is either
`token* error` (the error event, if any, is the final event — this covers the
search failure, the empty-retrieval message and a mid-stream provider
failure) or `token* sources done` (exactly one sources event followed by
exactly one done event).  In particular the sequence always matches
`token* sources? done?` with any error event terminal. -/
theorem claim_C5 (search : Except PyExc (List SearchRow))
    (stream : List SearchRow → TokenStream) :
    ∃ ts : List (List Char),
      (∃ m, chat_stream_generate search stream = ts.map StreamEvent.token ++ [.error m])
      ∨ (∃ ss, chat_stream_generate search stream
          = ts.map StreamEvent.token ++ [.sources ss, .done]) := by
  cases search with
  | error e => exact ⟨[], Or.inl ⟨pyExcStr e, rfl⟩⟩
  | ok context_chunks =>
    by_cases hemp : context_chunks.isEmpty
    · refine ⟨[], Or.inl ⟨"No relevant content found".toList, ?_⟩⟩
      simp [chat_stream_generate, hemp]
    · cases hf : (stream context_chunks).failure with
      | some msg =>
        refine ⟨(stream context_chunks).tokens, Or.inl ⟨msg, ?_⟩⟩
        simp [chat_stream_generate, hemp, hf]
      | none =>
        refine ⟨(stream context_chunks).tokens,
          Or.inr ⟨context_chunks.map (fun c => ⟨c.title, c.url, c.chapter, c.score⟩), ?_⟩⟩
        simp [chat_stream_generate, hemp, hf]

/-! ### Claims C6, C7, C8 and C9: the RAG service -/

/-- C6: `index_document` gives each chunk the deterministic id
`f"{doc_id}_chunk_{i}"` with `i` counting from 0; indexing the same document
twice (the timestamps may differ) yields identical id lists and identical
chunk counts, and upserting the second run into the store leaves the stored
id list exactly as it was after the first run — re-indexing overwrites rather
than duplicates. -/
theorem claim_C6 (embed : List Char → List ℚ) (now₁ now₂ : List Char)
    (doc_id title content url : List Char) (chapter : Option (List Char))
    (store : List PointStruct) :
    ∃ pts₁ pts₂,
      index_document embed now₁ doc_id title content url chapter = .ok pts₁
      ∧ index_document embed now₂ doc_id title content url chapter = .ok pts₂
      ∧ pts₁.map PointStruct.id
          = (List.range pts₁.length).map
              (fun i => doc_id ++ "_chunk_".toList ++ (Nat.repr i).toList)
      ∧ pts₂.map PointStruct.id = pts₁.map PointStruct.id
      ∧ pts₂.length = pts₁.length
      ∧ (upsert (upsert store pts₁) pts₂).map PointStruct.id
          = (upsert store pts₁).map PointStruct.id := by
  obtain ⟨chunks, hch⟩ : ∃ l, chunk_text content 500 100 = .ok l :=
    ⟨_, chunk_text_defaults_ok content⟩
  have hidx : ∀ now : List Char, index_document embed now doc_id title content url chapter
      = .ok (chunks.enum.map (fun ic =>
          ⟨doc_id ++ "_chunk_".toList ++ (Nat.repr ic.1).toList, embed ic.2, ic.2, doc_id,
            title, url, chapter.getD ("Main".toList), ic.1, now⟩)) := by
    intro now
    unfold index_document
    rw [hch]
    rfl
  have hids : ∀ now : List Char,
      ((chunks.enum.map (fun ic =>
          (⟨doc_id ++ "_chunk_".toList ++ (Nat.repr ic.1).toList, embed ic.2, ic.2, doc_id,
            title, url, chapter.getD ("Main".toList), ic.1, now⟩ : PointStruct))).map
        PointStruct.id)
      = (List.range chunks.length).map
          (fun i => doc_id ++ "_chunk_".toList ++ (Nat.repr i).toList) := by
    intro now
    rw [List.map_map]
    exact enum_map_depends_fst chunks
      (fun i => doc_id ++ "_chunk_".toList ++ (Nat.repr i).toList)
  have hlen : ∀ now : List Char,
      (chunks.enum.map (fun ic =>
        (⟨doc_id ++ "_chunk_".toList ++ (Nat.repr ic.1).toList, embed ic.2, ic.2, doc_id,
          title, url, chapter.getD ("Main".toList), ic.1, now⟩ : PointStruct))).length
      = chunks.length := by
    intro now
    rw [List.length_map, List.enum_length]
  refine ⟨_, _, hidx now₁, hidx now₂, ?_, ?_, ?_, ?_⟩
  · rw [hids now₁, hlen now₁]
  · rw [hids now₁, hids now₂]
  · rw [hlen now₁, hlen now₂]
  · apply upsert_ids_of_all_mem
    intro p hp
    have hpid : p.id ∈ (chunks.enum.map (fun ic =>
        (⟨doc_id ++ "_chunk_".toList ++ (Nat.repr ic.1).toList, embed ic.2, ic.2, doc_id,
          title, url, chapter.getD ("Main".toList), ic.1, now₂⟩ : PointStruct))).map
        PointStruct.id := List.mem_map.mpr ⟨p, hp, rfl⟩
    rw [hids now₂, ← hids now₁] at hpid
    rcases List.mem_map.mp hpid with ⟨q, hq, hqid⟩
    have hmem := upsert_ids_contain _ store q hq
    rwa [hqid] at hmem

/-- C7: assuming the vector store honours its search contract — the raw hits
are sorted by descending score, number at most `limit`, and none scores below
`score_threshold` — the formatted list `search_similar` returns is sorted by
descending score, has at most `limit` entries, and contains no entry scoring
below `score_threshold`. -/
theorem claim_C7 (results : List StorePoint) (limit : Nat) (score_threshold : ℚ)
    (hsorted : results.Pairwise (fun a b => b.score ≤ a.score))
    (hlimit : results.length ≤ limit)
    (hthresh : ∀ r ∈ results, score_threshold ≤ r.score) :
    (search_similar results).Pairwise (fun a b => b.score ≤ a.score)
    ∧ (search_similar results).length ≤ limit
    ∧ ∀ r ∈ search_similar results, score_threshold ≤ r.score := by
  refine ⟨?_, ?_, ?_⟩
  · exact List.Pairwise.map _ (fun a b h => h) hsorted
  · rw [show (search_similar results).length = results.length from List.length_map _ _]
    exact hlimit
  · intro r hr
    rcases List.mem_map.mp hr with ⟨x, hx, rfl⟩
    exact hthresh x hx

/-- Witness for C7: two raw hits scoring 1 and 0 with limit 5 and
threshold 0 (integer-valued rationals, so that the comparisons evaluate). -/
theorem claim_C7_witness :
    ([(⟨"ta".toList, "A".toList, "/a".toList, "Ch1".toList, some 0, 1⟩ : StorePoint),
        ⟨"tb".toList, "B".toList, "/b".toList, "Ch2".toList, none, 0⟩].Pairwise
      (fun a b => b.score ≤ a.score)
    ∧ ([(⟨"ta".toList, "A".toList, "/a".toList, "Ch1".toList, some 0, 1⟩ : StorePoint),
        ⟨"tb".toList, "B".toList, "/b".toList, "Ch2".toList, none, 0⟩] : List StorePoint).length ≤ 5
    ∧ (∀ r ∈ ([(⟨"ta".toList, "A".toList, "/a".toList, "Ch1".toList, some 0, 1⟩ : StorePoint),
        ⟨"tb".toList, "B".toList, "/b".toList, "Ch2".toList, none, 0⟩] : List StorePoint),
        (0 : ℚ) ≤ r.score))
    ∧ ((search_similar [⟨"ta".toList, "A".toList, "/a".toList, "Ch1".toList, some 0, 1⟩,
          ⟨"tb".toList, "B".toList, "/b".toList, "Ch2".toList, none, 0⟩]).Pairwise
        (fun a b => b.score ≤ a.score)
      ∧ (search_similar [⟨"ta".toList, "A".toList, "/a".toList, "Ch1".toList, some 0, 1⟩,
          ⟨"tb".toList, "B".toList, "/b".toList, "Ch2".toList, none, 0⟩]).length ≤ 5
      ∧ ∀ r ∈ search_similar [⟨"ta".toList, "A".toList, "/a".toList, "Ch1".toList, some 0, 1⟩,
          ⟨"tb".toList, "B".toList, "/b".toList, "Ch2".toList, none, 0⟩],
          (0 : ℚ) ≤ r.score) :=
  ⟨⟨by decide, by decide, by decide⟩,
    claim_C7 _ 5 0 (by decide) (by decide) (by decide)⟩

/-- C8: the context list `chat_with_selected_text` hands to the prompt
builder starts with the pinned user-selection entry — sentinel score 1.0,
fixed label "Selected Text" — and continues with exactly the retrieved chunks
in retrieval order, whatever their scores. -/
theorem claim_C8 (selected_text page_url : List Char) (context_chunks : List SearchRow) :
    (chat_with_selected_text_context selected_text page_url context_chunks).head?
        = some (selectedContext selected_text page_url)
    ∧ (selectedContext selected_text page_url).score = 1
    ∧ (selectedContext selected_text page_url).title = "Selected Text".toList
    ∧ ∀ i : Nat,
        (chat_with_selected_text_context selected_text page_url context_chunks)[i + 1]?
          = (context_chunks.map contextOfResult)[i]? := by
  refine ⟨rfl, rfl, rfl, ?_⟩
  intro i
  simp [chat_with_selected_text_context]

set_option maxRecDepth 80000 in
/-- C9: the indexing path chunks with the fixed defaults `chunk_size = 500`,
`overlap = 100` of `chunk_text` (the call is `self.chunk_text(content)` with
no parameters), while the `Settings` defaults are `chunk_size = 800`,
`chunk_overlap = 100` and are never consulted: for every content the chunk
count of `index_document` is that of `chunk_text content 500 100`, and on a
401-word document the two parameter choices provably differ (2 chunks versus
1). -/
theorem claim_C9 (embed : List Char → List ℚ) (now : List Char)
    (doc_id title url : List Char) (chapter : Option (List Char)) :
    defaultSettings.chunk_size = 800 ∧ defaultSettings.chunk_overlap = 100
    ∧ (∀ content, (index_document embed now doc_id title content url chapter).map List.length
        = (chunk_text content 500 100).map List.length)
    ∧ (chunk_text wordText401 500 100).map List.length = .ok 2
    ∧ (chunk_text wordText401 (defaultSettings.chunk_size : Int)
        (defaultSettings.chunk_overlap : Int)).map List.length = .ok 1 := by
  refine ⟨rfl, rfl, ?_, by decide, by decide⟩
  intro content
  unfold index_document
  cases h : chunk_text content 500 100 with
  | error e => rfl
  | ok chunks =>
    simp [Except.map, List.enum_length]

end RagBook
